import Mathlib

/-!
Verification of the bounded-resource archive extraction engine
(src/extractor.rs, src/format.rs, src/error.rs) against its specification.

Shallow embedding conventions:
- byte buffers are lists of naturals;
- the external codec libraries (zip, tar, ar, sevenz_rust, flate2, bzip2,
  lzma_rs, lz4, zstd) are opaque collaborators: extraction is parametric in
  a record of decoder functions, each returning either a string error or
  the entries / decoded bytes it yields;
- the engine code (size checks, accumulation, materialization, dispatch)
  is translated statement by statement from src/extractor.rs.
-/

/-- Byte content is modelled as a list of naturals, one per byte. -/
abbrev Bytes := List Nat

/-- Mirrors struct ExtractedFile (src/extractor.rs lines 37-57): the path of
one entry, its decompressed contents, and its directory flag. -/
structure ExtractedFile where
  path : String
  data : Bytes
  is_directory : Bool
deriving Repr, DecidableEq

/-- Mirrors enum ArchiveError (src/error.rs lines 52-127). Payloads that in
Rust wrap foreign error types are carried as strings here. -/
inductive ArchiveError where
  | Io (msg : String)
  | Zip (msg : String)
  | UnknownFormat
  | FileTooLarge (size : Nat) (limit : Nat)
  | TotalSizeTooLarge (size : Nat) (limit : Nat)
  | InvalidArchive (msg : String)
  | UnsupportedFormat (msg : String)
deriving Repr, DecidableEq

/-- Mirrors enum ArchiveFormat (src/format.rs lines 37-120) together with the
Ar and Deb variants that ArchiveExtractor::extract (src/extractor.rs lines
318-319) and tests/ar_tests.rs match on; the snapshot of format.rs predates
those two variants. -/
inductive ArchiveFormat where
  | Zip
  | Tar
  | Ar
  | Deb
  | TarGz
  | TarBz2
  | TarXz
  | TarZst
  | TarLz4
  | SevenZ
  | Gz
  | Bz2
  | Xz
  | Lz4
  | Zst
deriving Repr, DecidableEq

/-- Archive sub-kinds of the external mime_type crate's MimeType that the
conversions in src/format.rs mention. -/
inductive MimeArchive where
  | Zip
  | Tar
  | Gz
  | Bz2
  | Xz
  | Lz4
  | Zst
  | SevenZ
deriving Repr, DecidableEq

/-- The external content-type descriptor (the mime_type crate's MimeType):
either one of the archive descriptors used by src/format.rs, or any other
descriptor, carried as its string form. -/
inductive MimeType where
  | Archive (a : MimeArchive)
  | Other (descriptor : String)
deriving Repr, DecidableEq

/-- String form of a descriptor, standing in for MimeType::to_string. -/
def MimeType.asString : MimeType → String
  | .Archive .Zip => "application/zip"
  | .Archive .Tar => "application/x-tar"
  | .Archive .Gz => "application/gzip"
  | .Archive .Bz2 => "application/x-bzip2"
  | .Archive .Xz => "application/x-xz"
  | .Archive .Lz4 => "application/x-lz4"
  | .Archive .Zst => "application/zstd"
  | .Archive .SevenZ => "application/x-7z-compressed"
  | .Other s => s

/-- Mirrors the TryFrom reference impl for ArchiveFormat from a MimeType
(src/format.rs lines 179-195): the eight archive descriptors map to their
format tags, everything else is an UnsupportedFormat error carrying the
descriptor's string form. -/
def ArchiveFormat.tryFromMime (mime : MimeType) : Except ArchiveError ArchiveFormat :=
  match mime with
  | .Archive .Zip => .ok .Zip
  | .Archive .Tar => .ok .Tar
  | .Archive .Gz => .ok .Gz
  | .Archive .Bz2 => .ok .Bz2
  | .Archive .Xz => .ok .Xz
  | .Archive .Lz4 => .ok .Lz4
  | .Archive .Zst => .ok .Zst
  | .Archive .SevenZ => .ok .SevenZ
  | m => .error (.UnsupportedFormat m.asString)

/-- Mirrors ArchiveFormat::is_supported_mime (src/format.rs lines 174-176). -/
def ArchiveFormat.is_supported_mime (mime : MimeType) : Bool :=
  (ArchiveFormat.tryFromMime mime).isOk

/-- Conversion of a format tag to its content-type descriptor. The thirteen
arms present in the snapshot's From reference impl (src/format.rs lines
205-223) are translated as written: each succeeds, with the five compressed
composite tags mapping to the descriptor of their compression codec.
Modelled from the spec: the Ar and Deb arms are absent from the snapshot of
format.rs (which predates those variants); per the spec rule that tags with
no content-type descriptor equivalent fail descriptor conversion with an
unsupported signal, they return UnsupportedFormat here. -/
def MimeType.ofArchiveFormat : ArchiveFormat → Except ArchiveError MimeType
  | .Zip => .ok (.Archive .Zip)
  | .Tar => .ok (.Archive .Tar)
  | .Gz => .ok (.Archive .Gz)
  | .Bz2 => .ok (.Archive .Bz2)
  | .Xz => .ok (.Archive .Xz)
  | .Lz4 => .ok (.Archive .Lz4)
  | .Zst => .ok (.Archive .Zst)
  | .SevenZ => .ok (.Archive .SevenZ)
  | .TarGz => .ok (.Archive .Gz)
  | .TarBz2 => .ok (.Archive .Bz2)
  | .TarXz => .ok (.Archive .Xz)
  | .TarZst => .ok (.Archive .Zst)
  | .TarLz4 => .ok (.Archive .Lz4)
  | .Ar => .error (.UnsupportedFormat "ar")
  | .Deb => .error (.UnsupportedFormat "deb")

/-- One entry as surfaced by an external container-reading library: the
header metadata the engine consults (path, directory flag, declared size)
together with the bytes the entry's content reader yields on read_to_end.
The declared size and the realized content length are independent fields,
exactly as they are independent data in the Rust libraries. -/
structure RawEntry where
  path : String
  is_directory : Bool
  size : Nat
  content : Bytes
deriving Repr, DecidableEq

/-- Output of the gzip decoder: the decompressed bytes plus the optional
original filename from the gzip header. The filename is the value after the
source's UTF-8 validation of the raw header bytes (src/extractor.rs lines
514-519); none covers both an absent name and one that is not valid UTF-8. -/
structure GzDecoded where
  content : Bytes
  filename : Option String
deriving Repr, DecidableEq

/-- The external codec libraries, as a record of opaque decode functions.
Container readers yield their entry list; single-stream decoders yield the
decoded bytes. Errors are strings that the engine wraps the way the source
does at each call site. -/
structure Codecs where
  zipEntries : Bytes → Except String (List RawEntry)
  tarEntries : Bytes → Except String (List RawEntry)
  arEntries : Bytes → Except String (List RawEntry)
  sevenZEntries : Bytes → Except String (List RawEntry)
  gzDecode : Bytes → Except String GzDecoded
  bz2Decode : Bytes → Except String Bytes
  xzDecode : Bytes → Except String Bytes
  lz4Decode : Bytes → Except String Bytes
  zstDecode : Bytes → Except String Bytes

/-- Mirrors struct ArchiveExtractor (src/extractor.rs lines 130-134): the two
configured size ceilings. -/
structure ArchiveExtractor where
  max_file_size : Nat
  max_total_size : Nat
deriving Repr, DecidableEq

/-- Mirrors Default for ArchiveExtractor (src/extractor.rs lines 136-143). -/
def ArchiveExtractor.default : ArchiveExtractor :=
  { max_file_size := 100 * 1024 * 1024, max_total_size := 1024 * 1024 * 1024 }

/-- Mirrors ArchiveExtractor::new (src/extractor.rs lines 159-161). -/
def ArchiveExtractor.new : ArchiveExtractor :=
  ArchiveExtractor.default

/-- Mirrors ArchiveExtractor::with_max_file_size (src/extractor.rs 184-187). -/
def ArchiveExtractor.with_max_file_size (self : ArchiveExtractor) (size : Nat) :
    ArchiveExtractor :=
  { self with max_file_size := size }

/-- Mirrors ArchiveExtractor::with_max_total_size (src/extractor.rs 220-223). -/
def ArchiveExtractor.with_max_total_size (self : ArchiveExtractor) (size : Nat) :
    ArchiveExtractor :=
  { self with max_total_size := size }

/-- Mirrors the entry loop of ArchiveExtractor::process_tar_entries
(src/extractor.rs lines 608-655). For each entry in order: a non-directory
entry is checked against max_file_size (declared size), then the running
total is advanced and checked against max_total_size, then its content is
read and pushed; a directory entry is pushed with empty data and no checks.
The first violated check aborts with the corresponding error. -/
def ArchiveExtractor.process_tar_entries (self : ArchiveExtractor) :
    List RawEntry → Nat → Except ArchiveError (List ExtractedFile)
  | [], _ => .ok []
  | e :: rest, total_size =>
    if !e.is_directory then
      if e.size > self.max_file_size then
        .error (.FileTooLarge e.size self.max_file_size)
      else if total_size + e.size > self.max_total_size then
        .error (.TotalSizeTooLarge (total_size + e.size) self.max_total_size)
      else
        match self.process_tar_entries rest (total_size + e.size) with
        | .error err => .error err
        | .ok files => .ok ({ path := e.path, data := e.content, is_directory := false } :: files)
    else
      match self.process_tar_entries rest total_size with
      | .error err => .error err
      | .ok files => .ok ({ path := e.path, data := [], is_directory := true } :: files)

/-- Mirrors the index loop of ArchiveExtractor::extract_zip (src/extractor.rs
lines 340-376): identical checks and materialization as the tar loop, driven
by the random-access index instead of the forward stream. -/
def ArchiveExtractor.zip_entry_loop (self : ArchiveExtractor) :
    List RawEntry → Nat → Except ArchiveError (List ExtractedFile)
  | [], _ => .ok []
  | e :: rest, total_size =>
    if !e.is_directory then
      if e.size > self.max_file_size then
        .error (.FileTooLarge e.size self.max_file_size)
      else if total_size + e.size > self.max_total_size then
        .error (.TotalSizeTooLarge (total_size + e.size) self.max_total_size)
      else
        match self.zip_entry_loop rest (total_size + e.size) with
        | .error err => .error err
        | .ok files => .ok ({ path := e.path, data := e.content, is_directory := false } :: files)
    else
      match self.zip_entry_loop rest total_size with
      | .error err => .error err
      | .ok files => .ok ({ path := e.path, data := [], is_directory := true } :: files)

/-- Mirrors the for_each_entries callback of ArchiveExtractor::extract_7z
(src/extractor.rs lines 449-495): a directory entry is pushed with empty
data; a non-directory entry is size-checked (declared size against
max_file_size, then projected total against max_total_size), a violation
records the error and stops iteration, otherwise the content is read and
pushed. The recorded size error, if any, is returned after the walk. -/
def ArchiveExtractor.sevenz_entry_loop (self : ArchiveExtractor) :
    List RawEntry → Nat → Except ArchiveError (List ExtractedFile)
  | [], _ => .ok []
  | e :: rest, total_size =>
    if !e.is_directory then
      if e.size > self.max_file_size then
        .error (.FileTooLarge e.size self.max_file_size)
      else if total_size + e.size > self.max_total_size then
        .error (.TotalSizeTooLarge (total_size + e.size) self.max_total_size)
      else
        match self.sevenz_entry_loop rest (total_size + e.size) with
        | .error err => .error err
        | .ok files => .ok ({ path := e.path, data := e.content, is_directory := false } :: files)
    else
      match self.sevenz_entry_loop rest total_size with
      | .error err => .error err
      | .ok files => .ok ({ path := e.path, data := [], is_directory := true } :: files)

/-- Mirrors the record loop of ArchiveExtractor::process_ar_entries
(src/extractor.rs lines 657-695): every record is treated as a file (the
flat-record path never marks a directory); the declared header size is
checked against max_file_size, the running total against max_total_size,
then the content is read and pushed. -/
def ArchiveExtractor.process_ar_entries (self : ArchiveExtractor) :
    List RawEntry → Nat → Except ArchiveError (List ExtractedFile)
  | [], _ => .ok []
  | e :: rest, total_size =>
    if e.size > self.max_file_size then
      .error (.FileTooLarge e.size self.max_file_size)
    else if total_size + e.size > self.max_total_size then
      .error (.TotalSizeTooLarge (total_size + e.size) self.max_total_size)
    else
      match self.process_ar_entries rest (total_size + e.size) with
      | .error err => .error err
      | .ok files => .ok ({ path := e.path, data := e.content, is_directory := false } :: files)

/-- Mirrors ArchiveExtractor::extract_zip (src/extractor.rs lines 334-379):
open the index (errors wrap as the Zip error variant) and run the loop with
the running total at zero. -/
def ArchiveExtractor.extract_zip (self : ArchiveExtractor) (c : Codecs) (data : Bytes) :
    Except ArchiveError (List ExtractedFile) :=
  match c.zipEntries data with
  | .error e => .error (.Zip e)
  | .ok es => self.zip_entry_loop es 0

/-- Mirrors ArchiveExtractor::extract_tar (src/extractor.rs lines 381-385). -/
def ArchiveExtractor.extract_tar (self : ArchiveExtractor) (c : Codecs) (data : Bytes) :
    Except ArchiveError (List ExtractedFile) :=
  match c.tarEntries data with
  | .error e => .error (.Io e)
  | .ok es => self.process_tar_entries es 0

/-- Mirrors ArchiveExtractor::extract_ar (src/extractor.rs lines 387-391). -/
def ArchiveExtractor.extract_ar (self : ArchiveExtractor) (c : Codecs) (data : Bytes) :
    Except ArchiveError (List ExtractedFile) :=
  match c.arEntries data with
  | .error e => .error (.Io e)
  | .ok es => self.process_ar_entries es 0

/-- Mirrors ArchiveExtractor::extract_deb (src/extractor.rs lines 393-397):
textually the same body as extract_ar. -/
def ArchiveExtractor.extract_deb (self : ArchiveExtractor) (c : Codecs) (data : Bytes) :
    Except ArchiveError (List ExtractedFile) :=
  match c.arEntries data with
  | .error e => .error (.Io e)
  | .ok es => self.process_ar_entries es 0

/-- Mirrors ArchiveExtractor::extract_tar_gz (src/extractor.rs lines
399-404): the gzip filter feeds the tar reader; filter failures surface as
read errors of the tar stream. -/
def ArchiveExtractor.extract_tar_gz (self : ArchiveExtractor) (c : Codecs) (data : Bytes) :
    Except ArchiveError (List ExtractedFile) :=
  match c.gzDecode data with
  | .error e => .error (.Io e)
  | .ok g =>
    match c.tarEntries g.content with
    | .error e => .error (.Io e)
    | .ok es => self.process_tar_entries es 0

/-- Mirrors ArchiveExtractor::extract_tar_bz2 (src/extractor.rs 406-411). -/
def ArchiveExtractor.extract_tar_bz2 (self : ArchiveExtractor) (c : Codecs) (data : Bytes) :
    Except ArchiveError (List ExtractedFile) :=
  match c.bz2Decode data with
  | .error e => .error (.Io e)
  | .ok b =>
    match c.tarEntries b with
    | .error e => .error (.Io e)
    | .ok es => self.process_tar_entries es 0

/-- Mirrors ArchiveExtractor::extract_tar_xz (src/extractor.rs lines
413-421): the xz payload is decompressed up front, with decode failure
mapped to InvalidArchive, then the tar reader runs over the result. -/
def ArchiveExtractor.extract_tar_xz (self : ArchiveExtractor) (c : Codecs) (data : Bytes) :
    Except ArchiveError (List ExtractedFile) :=
  match c.xzDecode data with
  | .error e => .error (.InvalidArchive e)
  | .ok b =>
    match c.tarEntries b with
    | .error e => .error (.Io e)
    | .ok es => self.process_tar_entries es 0

/-- Mirrors ArchiveExtractor::extract_tar_zst (src/extractor.rs 423-428). -/
def ArchiveExtractor.extract_tar_zst (self : ArchiveExtractor) (c : Codecs) (data : Bytes) :
    Except ArchiveError (List ExtractedFile) :=
  match c.zstDecode data with
  | .error e => .error (.Io e)
  | .ok b =>
    match c.tarEntries b with
    | .error e => .error (.Io e)
    | .ok es => self.process_tar_entries es 0

/-- Mirrors ArchiveExtractor::extract_tar_lz4 (src/extractor.rs 430-435). -/
def ArchiveExtractor.extract_tar_lz4 (self : ArchiveExtractor) (c : Codecs) (data : Bytes) :
    Except ArchiveError (List ExtractedFile) :=
  match c.lz4Decode data with
  | .error e => .error (.Io e)
  | .ok b =>
    match c.tarEntries b with
    | .error e => .error (.Io e)
    | .ok es => self.process_tar_entries es 0

/-- Mirrors ArchiveExtractor::extract_7z (src/extractor.rs lines 437-496):
reader construction failure wraps as InvalidArchive with the 7z prefix,
then the single-pass entry walk runs with the total at zero. -/
def ArchiveExtractor.extract_7z (self : ArchiveExtractor) (c : Codecs) (data : Bytes) :
    Except ArchiveError (List ExtractedFile) :=
  match c.sevenZEntries data with
  | .error e => .error (.InvalidArchive ("7z error: " ++ e))
  | .ok es => self.sevenz_entry_loop es 0

/-- Mirrors ArchiveExtractor::extract_single_gz (src/extractor.rs lines
500-526): decode the whole stream, check the realized length against
max_file_size, and name the single entry after the gzip header filename
when present, falling back to the default placeholder. -/
def ArchiveExtractor.extract_single_gz (self : ArchiveExtractor) (c : Codecs) (data : Bytes) :
    Except ArchiveError (List ExtractedFile) :=
  match c.gzDecode data with
  | .error e => .error (.Io e)
  | .ok g =>
    if g.content.length > self.max_file_size then
      .error (.FileTooLarge g.content.length self.max_file_size)
    else
      .ok [{ path := g.filename.getD "data", data := g.content, is_directory := false }]

/-- Mirrors ArchiveExtractor::extract_single_bz2 (src/extractor.rs 528-546). -/
def ArchiveExtractor.extract_single_bz2 (self : ArchiveExtractor) (c : Codecs) (data : Bytes) :
    Except ArchiveError (List ExtractedFile) :=
  match c.bz2Decode data with
  | .error e => .error (.Io e)
  | .ok b =>
    if b.length > self.max_file_size then
      .error (.FileTooLarge b.length self.max_file_size)
    else
      .ok [{ path := "data", data := b, is_directory := false }]

/-- Mirrors ArchiveExtractor::extract_single_xz (src/extractor.rs 548-566);
the decode failure wraps as InvalidArchive as in the source. -/
def ArchiveExtractor.extract_single_xz (self : ArchiveExtractor) (c : Codecs) (data : Bytes) :
    Except ArchiveError (List ExtractedFile) :=
  match c.xzDecode data with
  | .error e => .error (.InvalidArchive e)
  | .ok b =>
    if b.length > self.max_file_size then
      .error (.FileTooLarge b.length self.max_file_size)
    else
      .ok [{ path := "data", data := b, is_directory := false }]

/-- Mirrors ArchiveExtractor::extract_single_lz4 (src/extractor.rs 568-586). -/
def ArchiveExtractor.extract_single_lz4 (self : ArchiveExtractor) (c : Codecs) (data : Bytes) :
    Except ArchiveError (List ExtractedFile) :=
  match c.lz4Decode data with
  | .error e => .error (.Io e)
  | .ok b =>
    if b.length > self.max_file_size then
      .error (.FileTooLarge b.length self.max_file_size)
    else
      .ok [{ path := "data", data := b, is_directory := false }]

/-- Mirrors ArchiveExtractor::extract_single_zst (src/extractor.rs 588-606). -/
def ArchiveExtractor.extract_single_zst (self : ArchiveExtractor) (c : Codecs) (data : Bytes) :
    Except ArchiveError (List ExtractedFile) :=
  match c.zstDecode data with
  | .error e => .error (.Io e)
  | .ok b =>
    if b.length > self.max_file_size then
      .error (.FileTooLarge b.length self.max_file_size)
    else
      .ok [{ path := "data", data := b, is_directory := false }]

/-- Mirrors ArchiveExtractor::extract (src/extractor.rs lines 314-332): the
dispatcher over the format tag. -/
def ArchiveExtractor.extract (self : ArchiveExtractor) (c : Codecs) (data : Bytes)
    (format : ArchiveFormat) : Except ArchiveError (List ExtractedFile) :=
  match format with
  | .Zip => self.extract_zip c data
  | .Tar => self.extract_tar c data
  | .Ar => self.extract_ar c data
  | .Deb => self.extract_deb c data
  | .TarGz => self.extract_tar_gz c data
  | .TarBz2 => self.extract_tar_bz2 c data
  | .TarXz => self.extract_tar_xz c data
  | .TarZst => self.extract_tar_zst c data
  | .TarLz4 => self.extract_tar_lz4 c data
  | .SevenZ => self.extract_7z c data
  | .Gz => self.extract_single_gz c data
  | .Bz2 => self.extract_single_bz2 c data
  | .Xz => self.extract_single_xz c data
  | .Lz4 => self.extract_single_lz4 c data
  | .Zst => self.extract_single_zst c data

/-- Canonical materialization of one container entry, as the tar, zip and 7z
loops perform it: a directory becomes an empty entry, a file carries the
realized content its reader yielded. -/
def RawEntry.toFile (e : RawEntry) : ExtractedFile :=
  if e.is_directory then
    { path := e.path, data := [], is_directory := true }
  else
    { path := e.path, data := e.content, is_directory := false }

/-- Canonical materialization of one flat record, as process_ar_entries
performs it: always a file, never a directory. -/
def RawEntry.toArFile (e : RawEntry) : ExtractedFile :=
  { path := e.path, data := e.content, is_directory := false }

/-- Sum of the content lengths of the non-directory entries of a result:
the final value of the Running Total of the spec. -/
def totalContentSize (files : List ExtractedFile) : Nat :=
  ((files.filter fun f => !f.is_directory).map fun f => f.data.length).sum

/-- Decides whether every declared-size check of the tar/zip/7z entry loop
passes, starting from the given running total. This predicate reads only
header metadata, never the realized content. -/
def ArchiveExtractor.declared_ok (self : ArchiveExtractor) :
    List RawEntry → Nat → Bool
  | [], _ => true
  | e :: rest, total_size =>
    if !e.is_directory then
      if e.size > self.max_file_size then false
      else if total_size + e.size > self.max_total_size then false
      else self.declared_ok rest (total_size + e.size)
    else
      self.declared_ok rest total_size

/-- Decides whether every declared-size check of the ar record loop passes,
starting from the given running total. -/
def ArchiveExtractor.ar_declared_ok (self : ArchiveExtractor) :
    List RawEntry → Nat → Bool
  | [], _ => true
  | e :: rest, total_size =>
    if e.size > self.max_file_size then false
    else if total_size + e.size > self.max_total_size then false
    else self.ar_declared_ok rest (total_size + e.size)

lemma zip_loop_eq_tar_loop (self : ArchiveExtractor) :
    ∀ (es : List RawEntry) (t : Nat),
      self.zip_entry_loop es t = self.process_tar_entries es t := by
  intro es
  induction es with
  | nil =>
    intro t
    rfl
  | cons e rest ih =>
    intro t
    simp only [ArchiveExtractor.zip_entry_loop, ArchiveExtractor.process_tar_entries, ih]

lemma sevenz_loop_eq_tar_loop (self : ArchiveExtractor) :
    ∀ (es : List RawEntry) (t : Nat),
      self.sevenz_entry_loop es t = self.process_tar_entries es t := by
  intro es
  induction es with
  | nil =>
    intro t
    rfl
  | cons e rest ih =>
    intro t
    simp only [ArchiveExtractor.sevenz_entry_loop, ArchiveExtractor.process_tar_entries, ih]

lemma tar_loop_shape (self : ArchiveExtractor) :
    ∀ (es : List RawEntry) (t : Nat) (fs : List ExtractedFile),
      self.process_tar_entries es t = Except.ok fs → fs = es.map RawEntry.toFile := by
  intro es
  induction es with
  | nil =>
    intro t fs h
    simp only [ArchiveExtractor.process_tar_entries, Except.ok.injEq] at h
    simp [← h]
  | cons e rest ih =>
    intro t fs h
    simp only [ArchiveExtractor.process_tar_entries] at h
    cases hd : e.is_directory with
    | false =>
      simp only [hd, Bool.not_false, if_pos] at h
      split at h
      · exact absurd h (by simp)
      · split at h
        · exact absurd h (by simp)
        · cases hrec : self.process_tar_entries rest (t + e.size) with
          | error err => rw [hrec] at h; exact absurd h (by simp)
          | ok files =>
            rw [hrec] at h
            simp only [Except.ok.injEq] at h
            subst h
            simp [RawEntry.toFile, hd, ih _ _ hrec]
    | true =>
      simp only [hd, Bool.not_true, Bool.false_eq_true, if_neg, ite_false] at h
      cases hrec : self.process_tar_entries rest t with
      | error err => rw [hrec] at h; exact absurd h (by simp)
      | ok files =>
        rw [hrec] at h
        simp only [Except.ok.injEq] at h
        subst h
        simp [RawEntry.toFile, hd, ih _ _ hrec]

lemma tar_loop_of_declared (self : ArchiveExtractor) :
    ∀ (es : List RawEntry) (t : Nat),
      self.declared_ok es t = true →
      self.process_tar_entries es t = Except.ok (es.map RawEntry.toFile) := by
  intro es
  induction es with
  | nil =>
    intro t _
    rfl
  | cons e rest ih =>
    intro t h
    simp only [ArchiveExtractor.declared_ok] at h
    simp only [ArchiveExtractor.process_tar_entries]
    cases hd : e.is_directory with
    | false =>
      simp only [hd, Bool.not_false, if_true] at h ⊢
      by_cases h1 : e.size > self.max_file_size
      · simp [h1] at h
      · by_cases h2 : t + e.size > self.max_total_size
        · simp [h1, h2] at h
        · simp only [h1, h2, if_false] at h ⊢
          rw [ih _ h]
          simp [RawEntry.toFile, hd]
    | true =>
      simp only [hd, Bool.not_true, if_false] at h ⊢
      rw [ih _ h]
      simp [RawEntry.toFile, hd]

lemma tar_loop_ok_declared (self : ArchiveExtractor) :
    ∀ (es : List RawEntry) (t : Nat) (fs : List ExtractedFile),
      self.process_tar_entries es t = Except.ok fs →
      self.declared_ok es t = true := by
  intro es
  induction es with
  | nil =>
    intro t fs _
    rfl
  | cons e rest ih =>
    intro t fs h
    simp only [ArchiveExtractor.process_tar_entries] at h
    simp only [ArchiveExtractor.declared_ok]
    cases hd : e.is_directory with
    | false =>
      simp only [hd, Bool.not_false, if_true] at h ⊢
      by_cases h1 : e.size > self.max_file_size
      · simp [h1] at h
      · by_cases h2 : t + e.size > self.max_total_size
        · simp [h1, h2] at h
        · simp only [h1, h2, if_false] at h ⊢
          cases hrec : self.process_tar_entries rest (t + e.size) with
          | error err => rw [hrec] at h; exact absurd h (by simp)
          | ok files => exact ih _ _ hrec
    | true =>
      simp only [hd, Bool.not_true, if_false] at h ⊢
      cases hrec : self.process_tar_entries rest t with
      | error err => rw [hrec] at h; exact absurd h (by simp)
      | ok files => exact ih _ _ hrec

lemma declared_ok_file_le (self : ArchiveExtractor) :
    ∀ (es : List RawEntry) (t : Nat),
      self.declared_ok es t = true →
      ∀ e ∈ es, e.is_directory = false → e.size ≤ self.max_file_size := by
  intro es
  induction es with
  | nil =>
    intro t _ e he
    exact absurd he (List.not_mem_nil e)
  | cons p rest ih =>
    intro t h e he hdir
    simp only [ArchiveExtractor.declared_ok] at h
    rcases List.mem_cons.mp he with hep | hmem
    · subst hep
      simp only [hdir, Bool.not_false, if_true] at h
      by_cases h1 : e.size > self.max_file_size
      · simp [h1] at h
      · omega
    · cases hd : p.is_directory with
      | false =>
        simp only [hd, Bool.not_false, if_true] at h
        by_cases h1 : p.size > self.max_file_size
        · simp [h1] at h
        · by_cases h2 : t + p.size > self.max_total_size
          · simp [h1, h2] at h
          · simp only [h1, h2, if_false] at h
            exact ih _ h e hmem hdir
      | true =>
        simp only [hd, Bool.not_true, if_false] at h
        exact ih _ h e hmem hdir

lemma tar_loop_mono (s₁ s₂ : ArchiveExtractor)
    (hf : s₁.max_file_size ≤ s₂.max_file_size)
    (ht : s₁.max_total_size ≤ s₂.max_total_size) :
    ∀ (es : List RawEntry) (t : Nat) (fs : List ExtractedFile),
      s₁.process_tar_entries es t = Except.ok fs →
      s₂.process_tar_entries es t = Except.ok fs := by
  intro es
  induction es with
  | nil =>
    intro t fs h
    exact h
  | cons e rest ih =>
    intro t fs h
    simp only [ArchiveExtractor.process_tar_entries] at h ⊢
    cases hd : e.is_directory with
    | false =>
      simp only [hd, Bool.not_false, if_true] at h ⊢
      by_cases h1 : e.size > s₁.max_file_size
      · simp [h1] at h
      · by_cases h2 : t + e.size > s₁.max_total_size
        · simp [h1, h2] at h
        · simp only [h1, h2, if_false] at h
          have g1 : ¬e.size > s₂.max_file_size := by omega
          have g2 : ¬t + e.size > s₂.max_total_size := by omega
          simp only [g1, g2, if_false]
          cases hrec : s₁.process_tar_entries rest (t + e.size) with
          | error err => rw [hrec] at h; exact absurd h (by simp)
          | ok files =>
            rw [hrec] at h
            rw [ih _ _ hrec]
            exact h
    | true =>
      simp only [hd, Bool.not_true, if_false] at h ⊢
      cases hrec : s₁.process_tar_entries rest t with
      | error err => rw [hrec] at h; exact absurd h (by simp)
      | ok files =>
        rw [hrec] at h
        rw [ih _ _ hrec]
        exact h

lemma tar_loop_oversized_first (self : ArchiveExtractor) :
    ∀ (pre : List RawEntry) (t : Nat) (e : RawEntry) (post : List RawEntry),
      self.declared_ok pre t = true →
      e.is_directory = false →
      e.size > self.max_file_size →
      self.process_tar_entries (pre ++ e :: post) t =
        Except.error (.FileTooLarge e.size self.max_file_size) := by
  intro pre
  induction pre with
  | nil =>
    intro t e post _ hdir hsz
    simp only [List.nil_append, ArchiveExtractor.process_tar_entries]
    simp [hdir, hsz]
  | cons p rest ih =>
    intro t e post h hdir hsz
    simp only [ArchiveExtractor.declared_ok] at h
    simp only [List.cons_append, ArchiveExtractor.process_tar_entries]
    cases hd : p.is_directory with
    | false =>
      simp only [hd, Bool.not_false, if_true, List.append_eq] at h ⊢
      by_cases h1 : p.size > self.max_file_size
      · simp [h1] at h
      · by_cases h2 : t + p.size > self.max_total_size
        · simp [h1, h2] at h
        · simp only [h1, h2, if_false] at h ⊢
          rw [ih _ _ _ h hdir hsz]
    | true =>
      simp only [hd, Bool.not_true, Bool.false_eq_true, if_false, List.append_eq] at h ⊢
      rw [ih _ _ _ h hdir hsz]

lemma declared_ok_of_dirs (self : ArchiveExtractor) :
    ∀ (es : List RawEntry), (∀ e ∈ es, e.is_directory = true) →
      ∀ (t : Nat), self.declared_ok es t = true := by
  intro es
  induction es with
  | nil =>
    intro _ t
    rfl
  | cons e rest ih =>
    intro h t
    have hd : e.is_directory = true := h e (List.mem_cons_self e rest)
    simp only [ArchiveExtractor.declared_ok, hd, Bool.not_true, if_false]
    exact ih (fun x hx => h x (List.mem_cons_of_mem e hx)) t

lemma totalContentSize_cons (f : ExtractedFile) (fs : List ExtractedFile) :
    totalContentSize (f :: fs) =
      (if f.is_directory then 0 else f.data.length) + totalContentSize fs := by
  cases hd : f.is_directory with
  | false => simp [totalContentSize, List.filter, hd]
  | true => simp [totalContentSize, List.filter, hd]

lemma totalContentSize_dirs :
    ∀ (es : List RawEntry), (∀ e ∈ es, e.is_directory = true) →
      totalContentSize (es.map RawEntry.toFile) = 0 := by
  intro es
  induction es with
  | nil =>
    intro _
    rfl
  | cons e rest ih =>
    intro h
    have hd : e.is_directory = true := h e (List.mem_cons_self e rest)
    simp only [List.map_cons, totalContentSize_cons, RawEntry.toFile, hd, if_true]
    simpa using ih (fun x hx => h x (List.mem_cons_of_mem e hx))

lemma ar_loop_shape (self : ArchiveExtractor) :
    ∀ (es : List RawEntry) (t : Nat) (fs : List ExtractedFile),
      self.process_ar_entries es t = Except.ok fs → fs = es.map RawEntry.toArFile := by
  intro es
  induction es with
  | nil =>
    intro t fs h
    simp only [ArchiveExtractor.process_ar_entries, Except.ok.injEq] at h
    simp [← h]
  | cons e rest ih =>
    intro t fs h
    simp only [ArchiveExtractor.process_ar_entries] at h
    by_cases h1 : e.size > self.max_file_size
    · simp [h1] at h
    · by_cases h2 : t + e.size > self.max_total_size
      · simp [h1, h2] at h
      · simp only [h1, h2, if_false] at h
        cases hrec : self.process_ar_entries rest (t + e.size) with
        | error err => rw [hrec] at h; exact absurd h (by simp)
        | ok files =>
          rw [hrec] at h
          simp only [Except.ok.injEq] at h
          subst h
          simp [RawEntry.toArFile, ih _ _ hrec]

lemma ar_loop_of_declared (self : ArchiveExtractor) :
    ∀ (es : List RawEntry) (t : Nat),
      self.ar_declared_ok es t = true →
      self.process_ar_entries es t = Except.ok (es.map RawEntry.toArFile) := by
  intro es
  induction es with
  | nil =>
    intro t _
    rfl
  | cons e rest ih =>
    intro t h
    simp only [ArchiveExtractor.ar_declared_ok] at h
    simp only [ArchiveExtractor.process_ar_entries]
    by_cases h1 : e.size > self.max_file_size
    · simp [h1] at h
    · by_cases h2 : t + e.size > self.max_total_size
      · simp [h1, h2] at h
      · simp only [h1, h2, if_false] at h ⊢
        rw [ih _ h]
        simp [RawEntry.toArFile]

lemma ar_loop_ok_declared (self : ArchiveExtractor) :
    ∀ (es : List RawEntry) (t : Nat) (fs : List ExtractedFile),
      self.process_ar_entries es t = Except.ok fs →
      self.ar_declared_ok es t = true := by
  intro es
  induction es with
  | nil =>
    intro t fs _
    rfl
  | cons e rest ih =>
    intro t fs h
    simp only [ArchiveExtractor.process_ar_entries] at h
    simp only [ArchiveExtractor.ar_declared_ok]
    by_cases h1 : e.size > self.max_file_size
    · simp [h1] at h
    · by_cases h2 : t + e.size > self.max_total_size
      · simp [h1, h2] at h
      · simp only [h1, h2, if_false] at h ⊢
        cases hrec : self.process_ar_entries rest (t + e.size) with
        | error err => rw [hrec] at h; exact absurd h (by simp)
        | ok files => exact ih _ _ hrec

lemma ar_declared_ok_file_le (self : ArchiveExtractor) :
    ∀ (es : List RawEntry) (t : Nat),
      self.ar_declared_ok es t = true →
      ∀ e ∈ es, e.size ≤ self.max_file_size := by
  intro es
  induction es with
  | nil =>
    intro t _ e he
    exact absurd he (List.not_mem_nil e)
  | cons p rest ih =>
    intro t h e he
    simp only [ArchiveExtractor.ar_declared_ok] at h
    by_cases h1 : p.size > self.max_file_size
    · simp [h1] at h
    · by_cases h2 : t + p.size > self.max_total_size
      · simp [h1, h2] at h
      · simp only [h1, h2, if_false] at h
        rcases List.mem_cons.mp he with hep | hmem
        · subst hep; omega
        · exact ih _ h e hmem

lemma ar_loop_mono (s₁ s₂ : ArchiveExtractor)
    (hf : s₁.max_file_size ≤ s₂.max_file_size)
    (ht : s₁.max_total_size ≤ s₂.max_total_size) :
    ∀ (es : List RawEntry) (t : Nat) (fs : List ExtractedFile),
      s₁.process_ar_entries es t = Except.ok fs →
      s₂.process_ar_entries es t = Except.ok fs := by
  intro es
  induction es with
  | nil =>
    intro t fs h
    exact h
  | cons e rest ih =>
    intro t fs h
    simp only [ArchiveExtractor.process_ar_entries] at h ⊢
    by_cases h1 : e.size > s₁.max_file_size
    · simp [h1] at h
    · by_cases h2 : t + e.size > s₁.max_total_size
      · simp [h1, h2] at h
      · simp only [h1, h2, if_false] at h
        have g1 : ¬e.size > s₂.max_file_size := by omega
        have g2 : ¬t + e.size > s₂.max_total_size := by omega
        simp only [g1, g2, if_false]
        cases hrec : s₁.process_ar_entries rest (t + e.size) with
        | error err => rw [hrec] at h; exact absurd h (by simp)
        | ok files =>
          rw [hrec] at h
          rw [ih _ _ hrec]
          exact h

lemma ar_loop_oversized_first (self : ArchiveExtractor) :
    ∀ (pre : List RawEntry) (t : Nat) (e : RawEntry) (post : List RawEntry),
      self.ar_declared_ok pre t = true →
      e.size > self.max_file_size →
      self.process_ar_entries (pre ++ e :: post) t =
        Except.error (.FileTooLarge e.size self.max_file_size) := by
  intro pre
  induction pre with
  | nil =>
    intro t e post _ hsz
    simp only [List.nil_append, ArchiveExtractor.process_ar_entries]
    simp [hsz]
  | cons p rest ih =>
    intro t e post h hsz
    simp only [ArchiveExtractor.ar_declared_ok] at h
    simp only [List.cons_append, ArchiveExtractor.process_ar_entries, List.append_eq]
    by_cases h1 : p.size > self.max_file_size
    · simp [h1] at h
    · by_cases h2 : t + p.size > self.max_total_size
      · simp [h1, h2] at h
      · simp only [h1, h2, if_false] at h ⊢
        rw [ih _ _ _ h hsz]

lemma extract_zip_ok_inv (self : ArchiveExtractor) (c : Codecs) (data : Bytes)
    (fs : List ExtractedFile) (h : self.extract c data .Zip = Except.ok fs) :
    ∃ es, c.zipEntries data = Except.ok es ∧
      self.process_tar_entries es 0 = Except.ok fs := by
  simp only [ArchiveExtractor.extract, ArchiveExtractor.extract_zip] at h
  split at h
  · exact absurd h (by simp)
  · rename_i es hp
    rw [zip_loop_eq_tar_loop] at h
    exact ⟨es, hp, h⟩

lemma extract_tar_ok_inv (self : ArchiveExtractor) (c : Codecs) (data : Bytes)
    (fs : List ExtractedFile) (h : self.extract c data .Tar = Except.ok fs) :
    ∃ es, c.tarEntries data = Except.ok es ∧
      self.process_tar_entries es 0 = Except.ok fs := by
  simp only [ArchiveExtractor.extract, ArchiveExtractor.extract_tar] at h
  split at h
  · exact absurd h (by simp)
  · rename_i es hp
    exact ⟨es, hp, h⟩

lemma extract_7z_ok_inv (self : ArchiveExtractor) (c : Codecs) (data : Bytes)
    (fs : List ExtractedFile) (h : self.extract c data .SevenZ = Except.ok fs) :
    ∃ es, c.sevenZEntries data = Except.ok es ∧
      self.process_tar_entries es 0 = Except.ok fs := by
  simp only [ArchiveExtractor.extract, ArchiveExtractor.extract_7z] at h
  split at h
  · exact absurd h (by simp)
  · rename_i es hp
    rw [sevenz_loop_eq_tar_loop] at h
    exact ⟨es, hp, h⟩

lemma extract_ar_ok_inv (self : ArchiveExtractor) (c : Codecs) (data : Bytes)
    (fs : List ExtractedFile) (h : self.extract c data .Ar = Except.ok fs) :
    ∃ es, c.arEntries data = Except.ok es ∧
      self.process_ar_entries es 0 = Except.ok fs := by
  simp only [ArchiveExtractor.extract, ArchiveExtractor.extract_ar] at h
  split at h
  · exact absurd h (by simp)
  · rename_i es hp
    exact ⟨es, hp, h⟩

lemma extract_deb_ok_inv (self : ArchiveExtractor) (c : Codecs) (data : Bytes)
    (fs : List ExtractedFile) (h : self.extract c data .Deb = Except.ok fs) :
    ∃ es, c.arEntries data = Except.ok es ∧
      self.process_ar_entries es 0 = Except.ok fs := by
  simp only [ArchiveExtractor.extract, ArchiveExtractor.extract_deb] at h
  split at h
  · exact absurd h (by simp)
  · rename_i es hp
    exact ⟨es, hp, h⟩

lemma extract_tar_gz_ok_inv (self : ArchiveExtractor) (c : Codecs) (data : Bytes)
    (fs : List ExtractedFile) (h : self.extract c data .TarGz = Except.ok fs) :
    ∃ g es, c.gzDecode data = Except.ok g ∧ c.tarEntries g.content = Except.ok es ∧
      self.process_tar_entries es 0 = Except.ok fs := by
  simp only [ArchiveExtractor.extract, ArchiveExtractor.extract_tar_gz] at h
  split at h
  · exact absurd h (by simp)
  · rename_i g hg
    split at h
    · exact absurd h (by simp)
    · rename_i es hp
      exact ⟨g, es, hg, hp, h⟩

lemma extract_tar_bz2_ok_inv (self : ArchiveExtractor) (c : Codecs) (data : Bytes)
    (fs : List ExtractedFile) (h : self.extract c data .TarBz2 = Except.ok fs) :
    ∃ b es, c.bz2Decode data = Except.ok b ∧ c.tarEntries b = Except.ok es ∧
      self.process_tar_entries es 0 = Except.ok fs := by
  simp only [ArchiveExtractor.extract, ArchiveExtractor.extract_tar_bz2] at h
  split at h
  · exact absurd h (by simp)
  · rename_i b hg
    split at h
    · exact absurd h (by simp)
    · rename_i es hp
      exact ⟨b, es, hg, hp, h⟩

lemma extract_tar_xz_ok_inv (self : ArchiveExtractor) (c : Codecs) (data : Bytes)
    (fs : List ExtractedFile) (h : self.extract c data .TarXz = Except.ok fs) :
    ∃ b es, c.xzDecode data = Except.ok b ∧ c.tarEntries b = Except.ok es ∧
      self.process_tar_entries es 0 = Except.ok fs := by
  simp only [ArchiveExtractor.extract, ArchiveExtractor.extract_tar_xz] at h
  split at h
  · exact absurd h (by simp)
  · rename_i b hg
    split at h
    · exact absurd h (by simp)
    · rename_i es hp
      exact ⟨b, es, hg, hp, h⟩

lemma extract_tar_zst_ok_inv (self : ArchiveExtractor) (c : Codecs) (data : Bytes)
    (fs : List ExtractedFile) (h : self.extract c data .TarZst = Except.ok fs) :
    ∃ b es, c.zstDecode data = Except.ok b ∧ c.tarEntries b = Except.ok es ∧
      self.process_tar_entries es 0 = Except.ok fs := by
  simp only [ArchiveExtractor.extract, ArchiveExtractor.extract_tar_zst] at h
  split at h
  · exact absurd h (by simp)
  · rename_i b hg
    split at h
    · exact absurd h (by simp)
    · rename_i es hp
      exact ⟨b, es, hg, hp, h⟩

lemma extract_tar_lz4_ok_inv (self : ArchiveExtractor) (c : Codecs) (data : Bytes)
    (fs : List ExtractedFile) (h : self.extract c data .TarLz4 = Except.ok fs) :
    ∃ b es, c.lz4Decode data = Except.ok b ∧ c.tarEntries b = Except.ok es ∧
      self.process_tar_entries es 0 = Except.ok fs := by
  simp only [ArchiveExtractor.extract, ArchiveExtractor.extract_tar_lz4] at h
  split at h
  · exact absurd h (by simp)
  · rename_i b hg
    split at h
    · exact absurd h (by simp)
    · rename_i es hp
      exact ⟨b, es, hg, hp, h⟩

lemma extract_single_gz_ok_inv (self : ArchiveExtractor) (c : Codecs) (data : Bytes)
    (fs : List ExtractedFile) (h : self.extract c data .Gz = Except.ok fs) :
    ∃ g, c.gzDecode data = Except.ok g ∧ ¬g.content.length > self.max_file_size ∧
      fs = [{ path := g.filename.getD "data", data := g.content, is_directory := false }] := by
  simp only [ArchiveExtractor.extract, ArchiveExtractor.extract_single_gz] at h
  split at h
  · exact absurd h (by simp)
  · rename_i g hg
    split at h
    · exact absurd h (by simp)
    · rename_i hlen
      simp only [Except.ok.injEq] at h
      exact ⟨g, hg, hlen, h.symm⟩

lemma extract_single_bz2_ok_inv (self : ArchiveExtractor) (c : Codecs) (data : Bytes)
    (fs : List ExtractedFile) (h : self.extract c data .Bz2 = Except.ok fs) :
    ∃ b, c.bz2Decode data = Except.ok b ∧ ¬b.length > self.max_file_size ∧
      fs = [{ path := "data", data := b, is_directory := false }] := by
  simp only [ArchiveExtractor.extract, ArchiveExtractor.extract_single_bz2] at h
  split at h
  · exact absurd h (by simp)
  · rename_i b hg
    split at h
    · exact absurd h (by simp)
    · rename_i hlen
      simp only [Except.ok.injEq] at h
      exact ⟨b, hg, hlen, h.symm⟩

lemma extract_single_xz_ok_inv (self : ArchiveExtractor) (c : Codecs) (data : Bytes)
    (fs : List ExtractedFile) (h : self.extract c data .Xz = Except.ok fs) :
    ∃ b, c.xzDecode data = Except.ok b ∧ ¬b.length > self.max_file_size ∧
      fs = [{ path := "data", data := b, is_directory := false }] := by
  simp only [ArchiveExtractor.extract, ArchiveExtractor.extract_single_xz] at h
  split at h
  · exact absurd h (by simp)
  · rename_i b hg
    split at h
    · exact absurd h (by simp)
    · rename_i hlen
      simp only [Except.ok.injEq] at h
      exact ⟨b, hg, hlen, h.symm⟩

lemma extract_single_lz4_ok_inv (self : ArchiveExtractor) (c : Codecs) (data : Bytes)
    (fs : List ExtractedFile) (h : self.extract c data .Lz4 = Except.ok fs) :
    ∃ b, c.lz4Decode data = Except.ok b ∧ ¬b.length > self.max_file_size ∧
      fs = [{ path := "data", data := b, is_directory := false }] := by
  simp only [ArchiveExtractor.extract, ArchiveExtractor.extract_single_lz4] at h
  split at h
  · exact absurd h (by simp)
  · rename_i b hg
    split at h
    · exact absurd h (by simp)
    · rename_i hlen
      simp only [Except.ok.injEq] at h
      exact ⟨b, hg, hlen, h.symm⟩

lemma extract_single_zst_ok_inv (self : ArchiveExtractor) (c : Codecs) (data : Bytes)
    (fs : List ExtractedFile) (h : self.extract c data .Zst = Except.ok fs) :
    ∃ b, c.zstDecode data = Except.ok b ∧ ¬b.length > self.max_file_size ∧
      fs = [{ path := "data", data := b, is_directory := false }] := by
  simp only [ArchiveExtractor.extract, ArchiveExtractor.extract_single_zst] at h
  split at h
  · exact absurd h (by simp)
  · rename_i b hg
    split at h
    · exact absurd h (by simp)
    · rename_i hlen
      simp only [Except.ok.injEq] at h
      exact ⟨b, hg, hlen, h.symm⟩

lemma toFile_mem_dir_empty (es : List RawEntry) (f : ExtractedFile)
    (hf : f ∈ es.map RawEntry.toFile) (hd : f.is_directory = true) : f.data = [] := by
  rcases List.mem_map.mp hf with ⟨e, _, rfl⟩
  cases hed : e.is_directory with
  | false => simp [RawEntry.toFile, hed] at hd
  | true => simp [RawEntry.toFile, hed]

lemma toArFile_mem_not_dir (es : List RawEntry) (f : ExtractedFile)
    (hf : f ∈ es.map RawEntry.toArFile) : f.is_directory = false := by
  rcases List.mem_map.mp hf with ⟨e, _, rfl⟩
  rfl

lemma extract_zip_eq (self : ArchiveExtractor) (c : Codecs) (data : Bytes)
    (es : List RawEntry) (hp : c.zipEntries data = Except.ok es) :
    self.extract c data .Zip = self.process_tar_entries es 0 := by
  simp only [ArchiveExtractor.extract, ArchiveExtractor.extract_zip, hp,
    zip_loop_eq_tar_loop]

lemma extract_tar_eq (self : ArchiveExtractor) (c : Codecs) (data : Bytes)
    (es : List RawEntry) (hp : c.tarEntries data = Except.ok es) :
    self.extract c data .Tar = self.process_tar_entries es 0 := by
  simp only [ArchiveExtractor.extract, ArchiveExtractor.extract_tar, hp]

lemma extract_7z_eq (self : ArchiveExtractor) (c : Codecs) (data : Bytes)
    (es : List RawEntry) (hp : c.sevenZEntries data = Except.ok es) :
    self.extract c data .SevenZ = self.process_tar_entries es 0 := by
  simp only [ArchiveExtractor.extract, ArchiveExtractor.extract_7z, hp,
    sevenz_loop_eq_tar_loop]

lemma extract_ar_eq (self : ArchiveExtractor) (c : Codecs) (data : Bytes)
    (es : List RawEntry) (hp : c.arEntries data = Except.ok es) :
    self.extract c data .Ar = self.process_ar_entries es 0 := by
  simp only [ArchiveExtractor.extract, ArchiveExtractor.extract_ar, hp]

lemma extract_deb_eq (self : ArchiveExtractor) (c : Codecs) (data : Bytes)
    (es : List RawEntry) (hp : c.arEntries data = Except.ok es) :
    self.extract c data .Deb = self.process_ar_entries es 0 := by
  simp only [ArchiveExtractor.extract, ArchiveExtractor.extract_deb, hp]

lemma extract_tar_gz_eq (self : ArchiveExtractor) (c : Codecs) (data : Bytes)
    (g : GzDecoded) (es : List RawEntry) (hg : c.gzDecode data = Except.ok g)
    (hp : c.tarEntries g.content = Except.ok es) :
    self.extract c data .TarGz = self.process_tar_entries es 0 := by
  simp only [ArchiveExtractor.extract, ArchiveExtractor.extract_tar_gz, hg, hp]

lemma extract_tar_bz2_eq (self : ArchiveExtractor) (c : Codecs) (data : Bytes)
    (b : Bytes) (es : List RawEntry) (hg : c.bz2Decode data = Except.ok b)
    (hp : c.tarEntries b = Except.ok es) :
    self.extract c data .TarBz2 = self.process_tar_entries es 0 := by
  simp only [ArchiveExtractor.extract, ArchiveExtractor.extract_tar_bz2, hg, hp]

lemma extract_tar_xz_eq (self : ArchiveExtractor) (c : Codecs) (data : Bytes)
    (b : Bytes) (es : List RawEntry) (hg : c.xzDecode data = Except.ok b)
    (hp : c.tarEntries b = Except.ok es) :
    self.extract c data .TarXz = self.process_tar_entries es 0 := by
  simp only [ArchiveExtractor.extract, ArchiveExtractor.extract_tar_xz, hg, hp]

lemma extract_tar_zst_eq (self : ArchiveExtractor) (c : Codecs) (data : Bytes)
    (b : Bytes) (es : List RawEntry) (hg : c.zstDecode data = Except.ok b)
    (hp : c.tarEntries b = Except.ok es) :
    self.extract c data .TarZst = self.process_tar_entries es 0 := by
  simp only [ArchiveExtractor.extract, ArchiveExtractor.extract_tar_zst, hg, hp]

lemma extract_tar_lz4_eq (self : ArchiveExtractor) (c : Codecs) (data : Bytes)
    (b : Bytes) (es : List RawEntry) (hg : c.lz4Decode data = Except.ok b)
    (hp : c.tarEntries b = Except.ok es) :
    self.extract c data .TarLz4 = self.process_tar_entries es 0 := by
  simp only [ArchiveExtractor.extract, ArchiveExtractor.extract_tar_lz4, hg, hp]

lemma extract_single_gz_eq (self : ArchiveExtractor) (c : Codecs) (data : Bytes)
    (g : GzDecoded) (hg : c.gzDecode data = Except.ok g) :
    self.extract c data .Gz =
      if g.content.length > self.max_file_size then
        Except.error (.FileTooLarge g.content.length self.max_file_size)
      else
        Except.ok [{ path := g.filename.getD "data", data := g.content, is_directory := false }] := by
  simp only [ArchiveExtractor.extract, ArchiveExtractor.extract_single_gz, hg]

lemma extract_single_bz2_eq (self : ArchiveExtractor) (c : Codecs) (data : Bytes)
    (b : Bytes) (hg : c.bz2Decode data = Except.ok b) :
    self.extract c data .Bz2 =
      if b.length > self.max_file_size then
        Except.error (.FileTooLarge b.length self.max_file_size)
      else
        Except.ok [{ path := "data", data := b, is_directory := false }] := by
  simp only [ArchiveExtractor.extract, ArchiveExtractor.extract_single_bz2, hg]

lemma extract_single_xz_eq (self : ArchiveExtractor) (c : Codecs) (data : Bytes)
    (b : Bytes) (hg : c.xzDecode data = Except.ok b) :
    self.extract c data .Xz =
      if b.length > self.max_file_size then
        Except.error (.FileTooLarge b.length self.max_file_size)
      else
        Except.ok [{ path := "data", data := b, is_directory := false }] := by
  simp only [ArchiveExtractor.extract, ArchiveExtractor.extract_single_xz, hg]

lemma extract_single_lz4_eq (self : ArchiveExtractor) (c : Codecs) (data : Bytes)
    (b : Bytes) (hg : c.lz4Decode data = Except.ok b) :
    self.extract c data .Lz4 =
      if b.length > self.max_file_size then
        Except.error (.FileTooLarge b.length self.max_file_size)
      else
        Except.ok [{ path := "data", data := b, is_directory := false }] := by
  simp only [ArchiveExtractor.extract, ArchiveExtractor.extract_single_lz4, hg]

lemma extract_single_zst_eq (self : ArchiveExtractor) (c : Codecs) (data : Bytes)
    (b : Bytes) (hg : c.zstDecode data = Except.ok b) :
    self.extract c data .Zst =
      if b.length > self.max_file_size then
        Except.error (.FileTooLarge b.length self.max_file_size)
      else
        Except.ok [{ path := "data", data := b, is_directory := false }] := by
  simp only [ArchiveExtractor.extract, ArchiveExtractor.extract_single_zst, hg]

/-- Codec record whose every decoder fails; the concrete scenarios below
override the fields they need. -/
def trivialCodecs : Codecs where
  zipEntries := fun _ => .error "unused"
  tarEntries := fun _ => .error "unused"
  arEntries := fun _ => .error "unused"
  sevenZEntries := fun _ => .error "unused"
  gzDecode := fun _ => .error "unused"
  bz2Decode := fun _ => .error "unused"
  xzDecode := fun _ => .error "unused"
  lz4Decode := fun _ => .error "unused"
  zstDecode := fun _ => .error "unused"

/-- Small concrete codec behavior used to evaluate the theorems on concrete
inputs: every decoder yields a fixed small value. -/
def sampleCodecs : Codecs where
  zipEntries := fun _ =>
    .ok [{ path := "f", is_directory := false, size := 2, content := [1, 2] }]
  tarEntries := fun _ =>
    .ok [{ path := "f", is_directory := false, size := 2, content := [1, 2] }]
  arEntries := fun _ =>
    .ok [{ path := "x", is_directory := false, size := 3, content := [1, 2, 3] }]
  sevenZEntries := fun _ =>
    .ok [{ path := "f", is_directory := false, size := 2, content := [1, 2] }]
  gzDecode := fun _ => .ok { content := [1, 2], filename := some "hello.txt" }
  bz2Decode := fun _ => .ok [4, 5]
  xzDecode := fun _ => .ok [4, 5]
  lz4Decode := fun _ => .ok [4, 5]
  zstDecode := fun _ => .ok [4, 5]

/-- Codec behavior of a truncated tar stream: the header declares 3 content
bytes but the entry reader yields none (read_to_end of an exhausted reader
returns successfully with fewer bytes). -/
def mismatchCodecs : Codecs :=
  { trivialCodecs with
    tarEntries := fun _ =>
      .ok [{ path := "a", is_directory := false, size := 3, content := [] }] }

/-- Codec behavior of a gzip stream that decodes to 10 bytes. -/
def gz10Codecs : Codecs :=
  { trivialCodecs with
    gzDecode := fun _ => .ok { content := List.replicate 10 0, filename := none } }

/-- Codec behavior of a tar container with a 50-byte entry followed by a
200-byte entry. -/
def twoEntryCodecs : Codecs :=
  { trivialCodecs with
    tarEntries := fun _ =>
      .ok [{ path := "a", is_directory := false, size := 50, content := List.replicate 50 0 },
           { path := "b", is_directory := false, size := 200, content := List.replicate 200 0 }] }

/-- Codec behavior of the spec's 3-entry scenario container: non-directory
entries of 10, 20 and 5000 bytes. -/
def threeEntryCodecs : Codecs :=
  { trivialCodecs with
    tarEntries := fun _ =>
      .ok [{ path := "e1", is_directory := false, size := 10, content := List.replicate 10 0 },
           { path := "e2", is_directory := false, size := 20, content := List.replicate 20 0 },
           { path := "e3", is_directory := false, size := 5000, content := List.replicate 5000 0 }] }

/-- Codec behavior of a container holding only directory entries. -/
def dirOnlyCodecs : Codecs :=
  { trivialCodecs with
    tarEntries := fun _ =>
      .ok [{ path := "d1/", is_directory := true, size := 0, content := [] },
           { path := "d2/", is_directory := true, size := 0, content := [] }] }

/-- C1 counterexample: with a tar container whose entry declares 3 content
bytes while its reader realizes 0 bytes (a truncated stream), extract
succeeds and returns the entry with the mismatched content, instead of
failing with a format-validity error as the claim requires. -/
theorem C1_counterexample_mismatch_not_surfaced :
    mismatchCodecs.tarEntries [] =
      Except.ok [{ path := "a", is_directory := false, size := 3, content := [] }] ∧
    ArchiveExtractor.extract { max_file_size := 10, max_total_size := 10 }
      mismatchCodecs [] ArchiveFormat.Tar =
      Except.ok [{ path := "a", data := [], is_directory := false }] ∧
    ([] : Bytes).length ≠ 3 :=
  ⟨rfl, rfl, by decide⟩

/-- C1 (amended): no adapter re-validates the realized decoded length. For
the ZIP, TAR, 7z and AR entry walks, whenever the container parse succeeds
and every declared-size check passes, extract succeeds and returns each
non-directory entry's realized content exactly as read — with no hypothesis
relating the realized length to the declared size, so a mismatch is
absorbed, not surfaced. -/
theorem C1_no_realized_length_revalidation
    (c : Codecs) (self : ArchiveExtractor) (data : Bytes) (es : List RawEntry) :
    (c.tarEntries data = Except.ok es → self.declared_ok es 0 = true →
      self.extract c data .Tar = Except.ok (es.map RawEntry.toFile)) ∧
    (c.zipEntries data = Except.ok es → self.declared_ok es 0 = true →
      self.extract c data .Zip = Except.ok (es.map RawEntry.toFile)) ∧
    (c.sevenZEntries data = Except.ok es → self.declared_ok es 0 = true →
      self.extract c data .SevenZ = Except.ok (es.map RawEntry.toFile)) ∧
    (c.arEntries data = Except.ok es → self.ar_declared_ok es 0 = true →
      self.extract c data .Ar = Except.ok (es.map RawEntry.toArFile)) := by
  refine ⟨fun hp hok => ?_, fun hp hok => ?_, fun hp hok => ?_, fun hp hok => ?_⟩
  · rw [extract_tar_eq self c data es hp]
    exact tar_loop_of_declared self es 0 hok
  · rw [extract_zip_eq self c data es hp]
    exact tar_loop_of_declared self es 0 hok
  · rw [extract_7z_eq self c data es hp]
    exact tar_loop_of_declared self es 0 hok
  · rw [extract_ar_eq self c data es hp]
    exact ar_loop_of_declared self es 0 hok

/-- C1 witness: the amended theorem applied to the truncated-stream codecs at
concrete limits. -/
theorem C1_no_realized_length_revalidation_witness :
    ArchiveExtractor.extract { max_file_size := 10, max_total_size := 10 }
      mismatchCodecs [] ArchiveFormat.Tar =
      Except.ok (List.map RawEntry.toFile
        [{ path := "a", is_directory := false, size := 3, content := [] }]) :=
  (C1_no_realized_length_revalidation mismatchCodecs
      { max_file_size := 10, max_total_size := 10 } []
      [{ path := "a", is_directory := false, size := 3, content := [] }]).1 rfl rfl

/-- C2: the five single-stream paths check only max_file_size; with a gzip
stream decoding to 10 bytes under max_file_size = 100 and max_total_size = 5,
extract succeeds although the sum of content lengths (10, the whole Running
Total) exceeds max_total_size — the total ceiling is not enforced there,
contradicting the claim and the crate's own with_max_total_size contract. -/
theorem C2_single_stream_total_limit_not_enforced :
    ArchiveExtractor.extract { max_file_size := 100, max_total_size := 5 }
      gz10Codecs [] ArchiveFormat.Gz =
      Except.ok [{ path := "data", data := List.replicate 10 0, is_directory := false }] ∧
    totalContentSize [{ path := "data", data := List.replicate 10 0, is_directory := false }] = 10 ∧
    10 > 5 :=
  ⟨rfl, rfl, by omega⟩

/-- C3 counterexample: converting the TarGz tag to its content-type
descriptor does not fail with an unsupported error; it succeeds and yields
the gzip descriptor, that is, another format's descriptor. -/
theorem C3_counterexample_targz_maps_to_gz :
    MimeType.ofArchiveFormat ArchiveFormat.TarGz =
      Except.ok (MimeType.Archive MimeArchive.Gz) := rfl

/-- C3 (amended): descriptor conversion succeeds on all five
compressed-container composite tags, mapping each to the descriptor of its
compression codec; only the flat-record tags (modelled from the spec, being
absent from the format.rs snapshot) fail with an unsupported error. -/
theorem C3_descriptor_conversion_amended :
    MimeType.ofArchiveFormat ArchiveFormat.TarGz = Except.ok (MimeType.Archive MimeArchive.Gz) ∧
    MimeType.ofArchiveFormat ArchiveFormat.TarBz2 = Except.ok (MimeType.Archive MimeArchive.Bz2) ∧
    MimeType.ofArchiveFormat ArchiveFormat.TarXz = Except.ok (MimeType.Archive MimeArchive.Xz) ∧
    MimeType.ofArchiveFormat ArchiveFormat.TarZst = Except.ok (MimeType.Archive MimeArchive.Zst) ∧
    MimeType.ofArchiveFormat ArchiveFormat.TarLz4 = Except.ok (MimeType.Archive MimeArchive.Lz4) ∧
    MimeType.ofArchiveFormat ArchiveFormat.Ar = Except.error (ArchiveError.UnsupportedFormat "ar") ∧
    MimeType.ofArchiveFormat ArchiveFormat.Deb = Except.error (ArchiveError.UnsupportedFormat "deb") :=
  ⟨rfl, rfl, rfl, rfl, rfl, rfl, rfl⟩

/-- C5: the spec's 3-entry container (10, 20 and 5000 bytes) under
max_file_size = 10000 and max_total_size = 25 fails with the aggregate-size
error carrying the projected running total 30 (the sum of the first two
entries) and the limit 25. -/
theorem C5_three_entry_aggregate_violation :
    ArchiveExtractor.extract { max_file_size := 10000, max_total_size := 25 }
      threeEntryCodecs [] ArchiveFormat.Tar =
      Except.error (ArchiveError.TotalSizeTooLarge 30 25) := rfl

/-- C9: extract is deterministic — two calls on the same limits, codecs,
bytes and format tag yield the same outcome (the embedding is a pure
function of these inputs). -/
theorem C9_extract_deterministic (c : Codecs) (self : ArchiveExtractor) (data : Bytes)
    (format : ArchiveFormat) (r₁ r₂ : Except ArchiveError (List ExtractedFile))
    (h₁ : self.extract c data format = r₁) (h₂ : self.extract c data format = r₂) :
    r₁ = r₂ :=
  h₁.symm.trans h₂

/-- C9 witness: two concrete runs of extract on the sample tar container
produce the same successful entry sequence. -/
theorem C9_extract_deterministic_witness :
    (Except.ok [({ path := "f", data := [1, 2], is_directory := false } : ExtractedFile)] :
      Except ArchiveError (List ExtractedFile)) =
      Except.ok [{ path := "f", data := [1, 2], is_directory := false }] :=
  C9_extract_deterministic sampleCodecs { max_file_size := 10, max_total_size := 10 } []
    ArchiveFormat.Tar _ _ rfl rfl

/-- C10: the Ar and Deb format tags run the identical extraction (same
entries or same error on every input), and the flat-record walk never marks
an entry as a directory. -/
theorem C10_ar_deb_equivalent (c : Codecs) (self : ArchiveExtractor) (data : Bytes) :
    self.extract c data .Ar = self.extract c data .Deb ∧
    (∀ fs, self.extract c data .Ar = Except.ok fs → ∀ f ∈ fs, f.is_directory = false) := by
  constructor
  · rfl
  · intro fs h f hf
    rcases extract_ar_ok_inv self c data fs h with ⟨es, _, hloop⟩
    have hshape := ar_loop_shape self es 0 fs hloop
    subst hshape
    exact toArFile_mem_not_dir es f hf

/-- C10 witness: the equivalence and the non-directory property evaluated on
the sample ar container. -/
theorem C10_ar_deb_equivalent_witness :
    ArchiveExtractor.extract { max_file_size := 10, max_total_size := 10 } sampleCodecs []
        ArchiveFormat.Ar =
      ArchiveExtractor.extract { max_file_size := 10, max_total_size := 10 } sampleCodecs []
        ArchiveFormat.Deb ∧
    ({ path := "x", data := [1, 2, 3], is_directory := false } : ExtractedFile).is_directory = false :=
  ⟨(C10_ar_deb_equivalent sampleCodecs { max_file_size := 10, max_total_size := 10 } []).1,
   (C10_ar_deb_equivalent sampleCodecs { max_file_size := 10, max_total_size := 10 } []).2
     [{ path := "x", data := [1, 2, 3], is_directory := false }] rfl
     { path := "x", data := [1, 2, 3], is_directory := false } (List.mem_singleton.mpr rfl)⟩

/-- C4 counterexample: in a tar container whose first entry (50 bytes)
already overruns max_total_size = 10 and whose second entry declares 200
bytes, exceeding max_file_size = 100, extract fails with the aggregate
error for the first entry instead of the per-entry FileTooLarge error
carrying 200 and 100 that the claim requires. -/
theorem C4_counterexample_total_preempts_file_error :
    twoEntryCodecs.tarEntries [] = Except.ok
      [{ path := "a", is_directory := false, size := 50, content := List.replicate 50 0 },
       { path := "b", is_directory := false, size := 200, content := List.replicate 200 0 }] ∧
    (200 > 100) ∧
    ArchiveExtractor.extract { max_file_size := 100, max_total_size := 10 }
      twoEntryCodecs [] ArchiveFormat.Tar =
      Except.error (ArchiveError.TotalSizeTooLarge 50 10) :=
  ⟨rfl, by omega, rfl⟩

/-- C4 (amended): for the declared-size-capable walks (TAR, ZIP, 7z, AR),
an entry whose header declares a size above max_file_size makes extract
fail — it never succeeds, so no byte of that entry's content is ever
materialized into a result — and when no earlier entry violates a limit
first, the error is FileTooLarge carrying the declared size and the limit. -/
theorem C4_pre_decode_short_circuit
    (c : Codecs) (self : ArchiveExtractor) (data : Bytes)
    (pre post : List RawEntry) (e : RawEntry) :
    (c.tarEntries data = Except.ok (pre ++ e :: post) → e.is_directory = false →
      e.size > self.max_file_size →
      (∀ fs, self.extract c data .Tar ≠ Except.ok fs) ∧
      (self.declared_ok pre 0 = true →
        self.extract c data .Tar =
          Except.error (.FileTooLarge e.size self.max_file_size))) ∧
    (c.zipEntries data = Except.ok (pre ++ e :: post) → e.is_directory = false →
      e.size > self.max_file_size →
      (∀ fs, self.extract c data .Zip ≠ Except.ok fs) ∧
      (self.declared_ok pre 0 = true →
        self.extract c data .Zip =
          Except.error (.FileTooLarge e.size self.max_file_size))) ∧
    (c.sevenZEntries data = Except.ok (pre ++ e :: post) → e.is_directory = false →
      e.size > self.max_file_size →
      (∀ fs, self.extract c data .SevenZ ≠ Except.ok fs) ∧
      (self.declared_ok pre 0 = true →
        self.extract c data .SevenZ =
          Except.error (.FileTooLarge e.size self.max_file_size))) ∧
    (c.arEntries data = Except.ok (pre ++ e :: post) →
      e.size > self.max_file_size →
      (∀ fs, self.extract c data .Ar ≠ Except.ok fs) ∧
      (self.ar_declared_ok pre 0 = true →
        self.extract c data .Ar =
          Except.error (.FileTooLarge e.size self.max_file_size))) := by
  have hmem : e ∈ pre ++ e :: post := by simp
  refine ⟨fun hp hdir hsz => ⟨?_, ?_⟩, fun hp hdir hsz => ⟨?_, ?_⟩,
    fun hp hdir hsz => ⟨?_, ?_⟩, fun hp hsz => ⟨?_, ?_⟩⟩
  · intro fs hok
    rcases extract_tar_ok_inv self c data fs hok with ⟨es, hp2, hloop⟩
    have hes := Except.ok.inj (hp.symm.trans hp2)
    subst hes
    have hdecl := tar_loop_ok_declared self _ 0 fs hloop
    have hle := declared_ok_file_le self _ 0 hdecl e hmem hdir
    omega
  · intro hpre
    rw [extract_tar_eq self c data _ hp]
    exact tar_loop_oversized_first self pre 0 e post hpre hdir hsz
  · intro fs hok
    rcases extract_zip_ok_inv self c data fs hok with ⟨es, hp2, hloop⟩
    have hes := Except.ok.inj (hp.symm.trans hp2)
    subst hes
    have hdecl := tar_loop_ok_declared self _ 0 fs hloop
    have hle := declared_ok_file_le self _ 0 hdecl e hmem hdir
    omega
  · intro hpre
    rw [extract_zip_eq self c data _ hp]
    exact tar_loop_oversized_first self pre 0 e post hpre hdir hsz
  · intro fs hok
    rcases extract_7z_ok_inv self c data fs hok with ⟨es, hp2, hloop⟩
    have hes := Except.ok.inj (hp.symm.trans hp2)
    subst hes
    have hdecl := tar_loop_ok_declared self _ 0 fs hloop
    have hle := declared_ok_file_le self _ 0 hdecl e hmem hdir
    omega
  · intro hpre
    rw [extract_7z_eq self c data _ hp]
    exact tar_loop_oversized_first self pre 0 e post hpre hdir hsz
  · intro fs hok
    rcases extract_ar_ok_inv self c data fs hok with ⟨es, hp2, hloop⟩
    have hes := Except.ok.inj (hp.symm.trans hp2)
    subst hes
    have hdecl := ar_loop_ok_declared self _ 0 fs hloop
    have hle := ar_declared_ok_file_le self _ 0 hdecl e hmem
    omega
  · intro hpre
    rw [extract_ar_eq self c data _ hp]
    exact ar_loop_oversized_first self pre 0 e post hpre hsz

/-- C4 witness: with the 50-byte then 200-byte container under
max_file_size = 100 and max_total_size = 60, the first entry passes and the
oversized second entry is rejected pre-decode with FileTooLarge 200 100. -/
theorem C4_pre_decode_short_circuit_witness :
    ArchiveExtractor.extract { max_file_size := 100, max_total_size := 60 }
      twoEntryCodecs [] ArchiveFormat.Tar =
      Except.error (ArchiveError.FileTooLarge 200 100) :=
  ((C4_pre_decode_short_circuit twoEntryCodecs
      { max_file_size := 100, max_total_size := 60 } []
      [{ path := "a", is_directory := false, size := 50, content := List.replicate 50 0 }] []
      { path := "b", is_directory := false, size := 200, content := List.replicate 200 0 }).1
    rfl rfl (by decide)).2 (by decide)

/-- C6: in every successful extraction, for every format, entries flagged as
directories carry empty content; and for the container walks that can yield
directory entries (TAR, ZIP, 7z), a container of only directory entries
succeeds under any limits with Running Total zero. -/
theorem C6_directories_weightless (c : Codecs) (self : ArchiveExtractor) (data : Bytes) :
    (∀ (format : ArchiveFormat) (fs : List ExtractedFile),
      self.extract c data format = Except.ok fs →
      ∀ f ∈ fs, f.is_directory = true → f.data = ([] : Bytes)) ∧
    (∀ es, c.tarEntries data = Except.ok es → (∀ e ∈ es, e.is_directory = true) →
      self.extract c data .Tar = Except.ok (es.map RawEntry.toFile) ∧
      totalContentSize (es.map RawEntry.toFile) = 0) ∧
    (∀ es, c.zipEntries data = Except.ok es → (∀ e ∈ es, e.is_directory = true) →
      self.extract c data .Zip = Except.ok (es.map RawEntry.toFile) ∧
      totalContentSize (es.map RawEntry.toFile) = 0) ∧
    (∀ es, c.sevenZEntries data = Except.ok es → (∀ e ∈ es, e.is_directory = true) →
      self.extract c data .SevenZ = Except.ok (es.map RawEntry.toFile) ∧
      totalContentSize (es.map RawEntry.toFile) = 0) := by
  refine ⟨?_, ?_, ?_, ?_⟩
  · intro format fs h f hf hd
    cases format with
    | Zip =>
      rcases extract_zip_ok_inv self c data fs h with ⟨es, _, hloop⟩
      have hshape := tar_loop_shape self es 0 fs hloop
      subst hshape
      exact toFile_mem_dir_empty es f hf hd
    | Tar =>
      rcases extract_tar_ok_inv self c data fs h with ⟨es, _, hloop⟩
      have hshape := tar_loop_shape self es 0 fs hloop
      subst hshape
      exact toFile_mem_dir_empty es f hf hd
    | Ar =>
      rcases extract_ar_ok_inv self c data fs h with ⟨es, _, hloop⟩
      have hshape := ar_loop_shape self es 0 fs hloop
      subst hshape
      have hnd := toArFile_mem_not_dir es f hf
      rw [hnd] at hd
      simp at hd
    | Deb =>
      rcases extract_deb_ok_inv self c data fs h with ⟨es, _, hloop⟩
      have hshape := ar_loop_shape self es 0 fs hloop
      subst hshape
      have hnd := toArFile_mem_not_dir es f hf
      rw [hnd] at hd
      simp at hd
    | TarGz =>
      rcases extract_tar_gz_ok_inv self c data fs h with ⟨g, es, _, _, hloop⟩
      have hshape := tar_loop_shape self es 0 fs hloop
      subst hshape
      exact toFile_mem_dir_empty es f hf hd
    | TarBz2 =>
      rcases extract_tar_bz2_ok_inv self c data fs h with ⟨b, es, _, _, hloop⟩
      have hshape := tar_loop_shape self es 0 fs hloop
      subst hshape
      exact toFile_mem_dir_empty es f hf hd
    | TarXz =>
      rcases extract_tar_xz_ok_inv self c data fs h with ⟨b, es, _, _, hloop⟩
      have hshape := tar_loop_shape self es 0 fs hloop
      subst hshape
      exact toFile_mem_dir_empty es f hf hd
    | TarZst =>
      rcases extract_tar_zst_ok_inv self c data fs h with ⟨b, es, _, _, hloop⟩
      have hshape := tar_loop_shape self es 0 fs hloop
      subst hshape
      exact toFile_mem_dir_empty es f hf hd
    | TarLz4 =>
      rcases extract_tar_lz4_ok_inv self c data fs h with ⟨b, es, _, _, hloop⟩
      have hshape := tar_loop_shape self es 0 fs hloop
      subst hshape
      exact toFile_mem_dir_empty es f hf hd
    | SevenZ =>
      rcases extract_7z_ok_inv self c data fs h with ⟨es, _, hloop⟩
      have hshape := tar_loop_shape self es 0 fs hloop
      subst hshape
      exact toFile_mem_dir_empty es f hf hd
    | Gz =>
      rcases extract_single_gz_ok_inv self c data fs h with ⟨g, _, _, rfl⟩
      rcases List.mem_singleton.mp hf with rfl
      simp at hd
    | Bz2 =>
      rcases extract_single_bz2_ok_inv self c data fs h with ⟨b, _, _, rfl⟩
      rcases List.mem_singleton.mp hf with rfl
      simp at hd
    | Xz =>
      rcases extract_single_xz_ok_inv self c data fs h with ⟨b, _, _, rfl⟩
      rcases List.mem_singleton.mp hf with rfl
      simp at hd
    | Lz4 =>
      rcases extract_single_lz4_ok_inv self c data fs h with ⟨b, _, _, rfl⟩
      rcases List.mem_singleton.mp hf with rfl
      simp at hd
    | Zst =>
      rcases extract_single_zst_ok_inv self c data fs h with ⟨b, _, _, rfl⟩
      rcases List.mem_singleton.mp hf with rfl
      simp at hd
  · intro es hp hdirs
    refine ⟨?_, totalContentSize_dirs es hdirs⟩
    rw [extract_tar_eq self c data es hp]
    exact tar_loop_of_declared self es 0 (declared_ok_of_dirs self es hdirs 0)
  · intro es hp hdirs
    refine ⟨?_, totalContentSize_dirs es hdirs⟩
    rw [extract_zip_eq self c data es hp]
    exact tar_loop_of_declared self es 0 (declared_ok_of_dirs self es hdirs 0)
  · intro es hp hdirs
    refine ⟨?_, totalContentSize_dirs es hdirs⟩
    rw [extract_7z_eq self c data es hp]
    exact tar_loop_of_declared self es 0 (declared_ok_of_dirs self es hdirs 0)

/-- C6 witness: a directories-only tar container succeeds even under zero
limits, with Running Total zero. -/
theorem C6_directories_weightless_witness :
    ArchiveExtractor.extract { max_file_size := 0, max_total_size := 0 } dirOnlyCodecs []
        ArchiveFormat.Tar =
      Except.ok (List.map RawEntry.toFile
        [{ path := "d1/", is_directory := true, size := 0, content := [] },
         { path := "d2/", is_directory := true, size := 0, content := [] }]) ∧
    totalContentSize (List.map RawEntry.toFile
        [{ path := "d1/", is_directory := true, size := 0, content := [] },
         { path := "d2/", is_directory := true, size := 0, content := [] }]) = 0 :=
  (C6_directories_weightless dirOnlyCodecs { max_file_size := 0, max_total_size := 0 } []).2.1
    [{ path := "d1/", is_directory := true, size := 0, content := [] },
     { path := "d2/", is_directory := true, size := 0, content := [] }] rfl (by decide)

/-- C7: a successful single-stream extraction yields exactly one
non-directory entry; its path is the default placeholder for Bz2, Xz, Lz4
and Zst, while for Gz it is the gzip header's original filename when one is
present and the placeholder otherwise; conversely, whenever the decode
succeeds within the per-file ceiling, extract returns exactly that entry. -/
theorem C7_single_stream_naming (c : Codecs) (self : ArchiveExtractor) (data : Bytes) :
    (∀ format,
      (format = ArchiveFormat.Gz ∨ format = ArchiveFormat.Bz2 ∨ format = ArchiveFormat.Xz ∨
        format = ArchiveFormat.Lz4 ∨ format = ArchiveFormat.Zst) →
      ∀ fs, self.extract c data format = Except.ok fs →
        fs.length = 1 ∧ ∀ f ∈ fs, f.is_directory = false) ∧
    (∀ g, c.gzDecode data = Except.ok g → ¬g.content.length > self.max_file_size →
      self.extract c data .Gz =
        Except.ok [{ path := g.filename.getD "data", data := g.content, is_directory := false }]) ∧
    (∀ b, c.bz2Decode data = Except.ok b → ¬b.length > self.max_file_size →
      self.extract c data .Bz2 =
        Except.ok [{ path := "data", data := b, is_directory := false }]) ∧
    (∀ b, c.xzDecode data = Except.ok b → ¬b.length > self.max_file_size →
      self.extract c data .Xz =
        Except.ok [{ path := "data", data := b, is_directory := false }]) ∧
    (∀ b, c.lz4Decode data = Except.ok b → ¬b.length > self.max_file_size →
      self.extract c data .Lz4 =
        Except.ok [{ path := "data", data := b, is_directory := false }]) ∧
    (∀ b, c.zstDecode data = Except.ok b → ¬b.length > self.max_file_size →
      self.extract c data .Zst =
        Except.ok [{ path := "data", data := b, is_directory := false }]) := by
  refine ⟨?_, ?_, ?_, ?_, ?_, ?_⟩
  · intro format hfmt fs h
    rcases hfmt with rfl | rfl | rfl | rfl | rfl
    · rcases extract_single_gz_ok_inv self c data fs h with ⟨g, _, _, rfl⟩
      exact ⟨rfl, by intro f hf; rcases List.mem_singleton.mp hf with rfl; rfl⟩
    · rcases extract_single_bz2_ok_inv self c data fs h with ⟨b, _, _, rfl⟩
      exact ⟨rfl, by intro f hf; rcases List.mem_singleton.mp hf with rfl; rfl⟩
    · rcases extract_single_xz_ok_inv self c data fs h with ⟨b, _, _, rfl⟩
      exact ⟨rfl, by intro f hf; rcases List.mem_singleton.mp hf with rfl; rfl⟩
    · rcases extract_single_lz4_ok_inv self c data fs h with ⟨b, _, _, rfl⟩
      exact ⟨rfl, by intro f hf; rcases List.mem_singleton.mp hf with rfl; rfl⟩
    · rcases extract_single_zst_ok_inv self c data fs h with ⟨b, _, _, rfl⟩
      exact ⟨rfl, by intro f hf; rcases List.mem_singleton.mp hf with rfl; rfl⟩
  · intro g hg hlen
    rw [extract_single_gz_eq self c data g hg, if_neg hlen]
  · intro b hg hlen
    rw [extract_single_bz2_eq self c data b hg, if_neg hlen]
  · intro b hg hlen
    rw [extract_single_xz_eq self c data b hg, if_neg hlen]
  · intro b hg hlen
    rw [extract_single_lz4_eq self c data b hg, if_neg hlen]
  · intro b hg hlen
    rw [extract_single_zst_eq self c data b hg, if_neg hlen]

/-- C7 witness: on the sample codecs, Gz takes the header name and Bz2 the
default placeholder. -/
theorem C7_single_stream_naming_witness :
    ArchiveExtractor.extract { max_file_size := 10, max_total_size := 10 } sampleCodecs []
        ArchiveFormat.Gz =
      Except.ok
        [{ path := (some "hello.txt").getD "data", data := [1, 2], is_directory := false }] ∧
    ArchiveExtractor.extract { max_file_size := 10, max_total_size := 10 } sampleCodecs []
        ArchiveFormat.Bz2 =
      Except.ok [{ path := "data", data := [4, 5], is_directory := false }] :=
  ⟨(C7_single_stream_naming sampleCodecs { max_file_size := 10, max_total_size := 10 } []).2.1
      { content := [1, 2], filename := some "hello.txt" } rfl (by decide),
   (C7_single_stream_naming sampleCodecs { max_file_size := 10, max_total_size := 10 } []).2.2.1
      [4, 5] rfl (by decide)⟩

/-- C8: limit monotonicity — a successful extraction under limits (A, B)
also succeeds, with the identical entry sequence, under any limits
(A', B') with A' at least A and B' at least B, for every format tag. -/
theorem C8_limit_monotonicity (c : Codecs) (s₁ s₂ : ArchiveExtractor) (data : Bytes)
    (format : ArchiveFormat) (fs : List ExtractedFile)
    (hf : s₁.max_file_size ≤ s₂.max_file_size)
    (ht : s₁.max_total_size ≤ s₂.max_total_size)
    (h : s₁.extract c data format = Except.ok fs) :
    s₂.extract c data format = Except.ok fs := by
  cases format with
  | Zip =>
    rcases extract_zip_ok_inv s₁ c data fs h with ⟨es, hp, hloop⟩
    rw [extract_zip_eq s₂ c data es hp]
    exact tar_loop_mono s₁ s₂ hf ht es 0 fs hloop
  | Tar =>
    rcases extract_tar_ok_inv s₁ c data fs h with ⟨es, hp, hloop⟩
    rw [extract_tar_eq s₂ c data es hp]
    exact tar_loop_mono s₁ s₂ hf ht es 0 fs hloop
  | Ar =>
    rcases extract_ar_ok_inv s₁ c data fs h with ⟨es, hp, hloop⟩
    rw [extract_ar_eq s₂ c data es hp]
    exact ar_loop_mono s₁ s₂ hf ht es 0 fs hloop
  | Deb =>
    rcases extract_deb_ok_inv s₁ c data fs h with ⟨es, hp, hloop⟩
    rw [extract_deb_eq s₂ c data es hp]
    exact ar_loop_mono s₁ s₂ hf ht es 0 fs hloop
  | TarGz =>
    rcases extract_tar_gz_ok_inv s₁ c data fs h with ⟨g, es, hg, hp, hloop⟩
    rw [extract_tar_gz_eq s₂ c data g es hg hp]
    exact tar_loop_mono s₁ s₂ hf ht es 0 fs hloop
  | TarBz2 =>
    rcases extract_tar_bz2_ok_inv s₁ c data fs h with ⟨b, es, hg, hp, hloop⟩
    rw [extract_tar_bz2_eq s₂ c data b es hg hp]
    exact tar_loop_mono s₁ s₂ hf ht es 0 fs hloop
  | TarXz =>
    rcases extract_tar_xz_ok_inv s₁ c data fs h with ⟨b, es, hg, hp, hloop⟩
    rw [extract_tar_xz_eq s₂ c data b es hg hp]
    exact tar_loop_mono s₁ s₂ hf ht es 0 fs hloop
  | TarZst =>
    rcases extract_tar_zst_ok_inv s₁ c data fs h with ⟨b, es, hg, hp, hloop⟩
    rw [extract_tar_zst_eq s₂ c data b es hg hp]
    exact tar_loop_mono s₁ s₂ hf ht es 0 fs hloop
  | TarLz4 =>
    rcases extract_tar_lz4_ok_inv s₁ c data fs h with ⟨b, es, hg, hp, hloop⟩
    rw [extract_tar_lz4_eq s₂ c data b es hg hp]
    exact tar_loop_mono s₁ s₂ hf ht es 0 fs hloop
  | SevenZ =>
    rcases extract_7z_ok_inv s₁ c data fs h with ⟨es, hp, hloop⟩
    rw [extract_7z_eq s₂ c data es hp]
    exact tar_loop_mono s₁ s₂ hf ht es 0 fs hloop
  | Gz =>
    rcases extract_single_gz_ok_inv s₁ c data fs h with ⟨g, hg, hlen, rfl⟩
    rw [extract_single_gz_eq s₂ c data g hg, if_neg (by omega)]
  | Bz2 =>
    rcases extract_single_bz2_ok_inv s₁ c data fs h with ⟨b, hg, hlen, rfl⟩
    rw [extract_single_bz2_eq s₂ c data b hg, if_neg (by omega)]
  | Xz =>
    rcases extract_single_xz_ok_inv s₁ c data fs h with ⟨b, hg, hlen, rfl⟩
    rw [extract_single_xz_eq s₂ c data b hg, if_neg (by omega)]
  | Lz4 =>
    rcases extract_single_lz4_ok_inv s₁ c data fs h with ⟨b, hg, hlen, rfl⟩
    rw [extract_single_lz4_eq s₂ c data b hg, if_neg (by omega)]
  | Zst =>
    rcases extract_single_zst_ok_inv s₁ c data fs h with ⟨b, hg, hlen, rfl⟩
    rw [extract_single_zst_eq s₂ c data b hg, if_neg (by omega)]

/-- C8 witness: the sample tar container, successful under limits (2, 2),
yields the identical result under the larger limits (5, 9). -/
theorem C8_limit_monotonicity_witness :
    ArchiveExtractor.extract { max_file_size := 5, max_total_size := 9 } sampleCodecs []
        ArchiveFormat.Tar =
      Except.ok [{ path := "f", data := [1, 2], is_directory := false }] :=
  C8_limit_monotonicity sampleCodecs { max_file_size := 2, max_total_size := 2 }
    { max_file_size := 5, max_total_size := 9 } [] ArchiveFormat.Tar
    [{ path := "f", data := [1, 2], is_directory := false }] (by decide) (by decide) rfl
